import Mathlib

/-!
# Verification of the Park Observer CSV ingestion pipeline (`csv_loader.py`)

This file shallowly embeds the core of `csv_loader.py` — the type caster
(`cast`, `maybe_float`, `maybe_int`), the track-geometry builder
(`build_track_geometry` and its consumption loop), and the three row loops
(`process_tracklog_file_v1`, `process_gpspoints_file_v1`,
`process_feature_file_v1`) — and proves the frozen claims about them.

Modelling conventions:

* A Python string is modelled as its list of code points, `Str := List Char`;
  Python's lexicographic string comparison coincides with the lexicographic
  `LinearOrder (List Char)` instance.  (Concrete strings are written
  `"10".data`.)
* Python `float(s)` / `int(s)` are modelled by the executable parsers
  `floatOfString` / `intOfString` over decimal literals (optional sign,
  digits, decimal point, exponent); the exotic inputs Python additionally
  accepts (`inf`, `nan`, digit underscores) are out of scope of every claim,
  which only distinguish parse success from parse failure.  A parsed float
  is represented exactly as a decimal `Dec` (integer mantissa and power-of-
  ten exponent, value `m * 10 ^ e`); no claim performs arithmetic on
  coordinate values, they are only carried into records, so the exact
  decimal representation is adequate.
* `dateutil.parser.parse` is an external collaborator; it is passed in as a
  parameter `pd : Str → Option ℤ` (`none` models the `ValueError` it
  raises on unparsable input, `ℤ` is an opaque instant representation).
* An uncaught Python exception is modelled as `PyResult.raise` or as a
  returned `aborted = true` flag; `try/except` blocks are modelled by the
  places where such an error is converted back into a normal result.
* A positional fix line of the GPS point CSV file, as consumed by
  `build_track_geometry`, is pre-decoded into a `Fix` (timestamp token plus
  the two parsed coordinates); the claims about the track pass all quantify
  over streams of well-formed fix lines.  The raw-token granularity is kept
  where claims need it (`process_gpspoints_file_v1` and the feature loop).
* `arcpy.da.InsertCursor.insertRow` returns the new object id; it is
  modelled by a per-cursor counter that increments at each insert.
-/

namespace CsvLoader

/-- A Python string, as its list of code points. -/
abbrev Str := List Char

/-- The result of running a piece of Python code: a value, or an uncaught
exception (`raise`). -/
inductive PyResult (α : Type) where
  | ok : α → PyResult α
  | raise : PyResult α
deriving DecidableEq, Repr

/-- A Python float parsed from a decimal literal, kept exactly: the value is
`m * 10 ^ e`. -/
structure Dec where
  m : ℤ
  e : ℤ
deriving DecidableEq, Repr

/-! ## Numeric token parsers (Python `float` / `int`) -/

/-- Value of a digit list, most significant first. -/
def digitsToNat (cs : Str) : ℕ :=
  cs.foldl (fun n c => 10 * n + (c.toNat - 48)) 0

/-- A non-empty, all-digit character list. -/
def allDigits (cs : Str) : Bool :=
  !cs.isEmpty && cs.all (·.isDigit)

/-- Python `str.strip()` / the whitespace stripping of `float`/`int`. -/
def stripChars (cs : Str) : Str :=
  ((cs.dropWhile Char.isWhitespace).reverse.dropWhile Char.isWhitespace).reverse

/-- Split a character list at the first occurrence of `c`; the second
component is `none` when `c` does not occur. -/
def splitAtChar (c : Char) (cs : Str) : Str × Option Str :=
  match cs.span (fun x => x != c) with
  | (pre, []) => (pre, none)
  | (pre, _ :: post) => (pre, some post)

/-- Model of Python `int(s)`: optional surrounding whitespace, optional sign,
then a non-empty digit string; `none` models the `ValueError` raised
otherwise. -/
def intOfString (s : Str) : Option ℤ :=
  match stripChars s with
  | '-' :: cs => if allDigits cs then some (-(digitsToNat cs : ℤ)) else none
  | '+' :: cs => if allDigits cs then some (digitsToNat cs : ℤ) else none
  | cs => if allDigits cs then some (digitsToNat cs : ℤ) else none

/-- Signed value of an exponent character list (digits with optional sign). -/
def signedDigits (cs : Str) : Option ℤ :=
  match cs with
  | '-' :: ds => if allDigits ds then some (-(digitsToNat ds : ℤ)) else none
  | '+' :: ds => if allDigits ds then some (digitsToNat ds : ℤ) else none
  | ds => if allDigits ds then some (digitsToNat ds : ℤ) else none

/-- Model of Python `float(s)` on decimal literals: optional surrounding
whitespace, optional sign, digits with an optional decimal point (at least
one digit in the mantissa), and an optional `e`/`E` exponent; `none` models
the `ValueError` raised otherwise. -/
def floatOfString (s : Str) : Option Dec :=
  let cs := (stripChars s).map Char.toLower
  let signAndRest : ℤ × Str :=
    match cs with
    | '-' :: rest => (-1, rest)
    | '+' :: rest => (1, rest)
    | rest => (1, rest)
  let sign := signAndRest.1
  let body := signAndRest.2
  let mantExp := splitAtChar 'e' body
  let expVal : Option ℤ :=
    match mantExp.2 with
    | none => some 0
    | some ecs => signedDigits ecs
  match expVal with
  | none => none
  | some ex =>
    let ipFp := splitAtChar '.' mantExp.1
    let ip := ipFp.1
    let fp := (ipFp.2).getD []
    let nonEmptyMant : Bool :=
      match ipFp.2 with
      | none => !ip.isEmpty
      | some f => !ip.isEmpty || !f.isEmpty
    if ip.all (·.isDigit) && fp.all (·.isDigit) && nonEmptyMant then
      some ⟨sign * (digitsToNat (ip ++ fp) : ℤ), ex - (fp.length : ℤ)⟩
    else none

/-- `maybe_float` from the source: `float(string)` with `ValueError` caught,
returning `None`. -/
def maybe_float (string : Str) : Option Dec :=
  floatOfString string

/-- `maybe_int` from the source: `int(string)` with `ValueError` caught,
returning `None`. -/
def maybe_int (string : Str) : Option ℤ :=
  intOfString string

/-! ## The type caster (`cast`) -/

/-- A typed value produced by `cast`: the esri value written to a row.
`float none` / `int none` are the `None` results of the tolerant numeric
casts; `null` is the `None` returned for an unrecognized declared type. -/
inductive Value where
  | float : Option Dec → Value
  | int : Option ℤ → Value
  | date : ℤ → Value
  | text : Str → Value
  | null : Value
deriving DecidableEq, Repr

/-- `cast(string, esri_type)` from the source.  `pd` is
`dateutil.parser.parse(·, ignoretz=True)`; a `DATE` token it cannot parse
raises (`PyResult.raise`), every other branch returns normally. -/
def cast (pd : Str → Option ℤ) (string esri_type : Str) : PyResult Value :=
  let esri_type := esri_type.map Char.toUpper
  if esri_type = "DOUBLE".data ∨ esri_type = "FLOAT".data then
    .ok (.float (maybe_float string))
  else if esri_type = "SHORT".data ∨ esri_type = "LONG".data then
    .ok (.int (maybe_int string))
  else if esri_type = "DATE".data then
    match pd string with
    | some d => .ok (.date d)
    | none => .raise
  else if esri_type = "TEXT".data ∨ esri_type = "BLOB".data then
    .ok (.text string)
  else
    .ok .null

/-! ## The track geometry builder (`build_track_geometry`) -/

/-- One decoded line of the GPS points CSV file as read by
`build_track_geometry`: the timestamp token `items[keys[T]]` and the parsed
coordinates `float(items[keys[X]])`, `float(items[keys[Y]])`.  The timestamp
is carried alongside the coordinates so that specifications can speak about
the time of a path point; the loop below reads only `ts` for control flow
and only `x`, `y` enter the emitted geometry, exactly as in the source. -/
structure Fix where
  ts : Str
  x : Dec
  y : Dec
deriving DecidableEq, Repr

/-- The coordinate pair of a fix — the `[float(items[keys[X]]),
float(items[keys[Y]])]` list the source appends to the path. -/
def fixCoord (f : Fix) : Dec × Dec := (f.x, f.y)

/-- The `for line in point_file` loop of `build_track_geometry`, with the
loop state (`path`, `point`) made explicit.  Returns the final `path`, the
final `point`, and the unconsumed remainder of the fix stream (the file
cursor position after the loop). -/
def buildTrackLoop (start_time end_time : Str) :
    List Fix → List Fix → Option Fix → List Fix × Option Fix × List Fix
  | [], path, point => (path, point, [])
  | f :: rest, path, point =>
    let path1 := if f.ts ≤ start_time then [] else path
    if f.ts < start_time then
      buildTrackLoop start_time end_time rest path1 point
    else
      let path2 := path1 ++ [f]
      if f.ts = end_time then (path2, some f, rest)
      else buildTrackLoop start_time end_time rest path2 (some f)

/-- The esri JSON polyline built at the end of `build_track_geometry`:
`{"paths": [path], "spatialReference": {"wkid": 4326}}`. -/
structure Polyline where
  paths : List (List (Dec × Dec))
  wkid : ℕ
deriving DecidableEq, Repr

/-- `build_track_geometry(point_file, prior_last_point, start_time,
end_time, keys)` from the source: the path starts as `[prior_last_point]`
when one is carried over (a coordinate list is truthy) and empty otherwise,
`point` starts as `None`, and the loop consumes the stream.  Returns the
polyline, the last point, and the remaining stream (the advanced cursor). -/
def build_track_geometry (point_file : List Fix) (prior_last_point : Option Fix)
    (start_time end_time : Str) : Polyline × Option Fix × List Fix :=
  let r := buildTrackLoop start_time end_time point_file prior_last_point.toList none
  (⟨[r.1.map fixCoord], 4326⟩, r.2.1, r.2.2)

/-- Specification-level description (from the spec's words, for claim C10):
the fixes appended to the path during one `build_track_geometry` call — the
consumed fixes that are not skipped by `timestamp < start_time`, consumption
stopping after the first appended fix with `timestamp == end_time`. -/
def appendedFixes (start_time end_time : Str) : List Fix → List Fix
  | [] => []
  | f :: rest =>
    if f.ts < start_time then appendedFixes start_time end_time rest
    else f :: (if f.ts = end_time then [] else appendedFixes start_time end_time rest)

/-! ## Shared row machinery -/

/-- The list comprehension `[cast(item, types[i]) for i, item in
enumerate(items)]`: each item is cast with the type at its index; an index
beyond the end of the type list is an uncaught `IndexError`, and a raising
`cast` propagates. -/
def castItems (pd : Str → Option ℤ) : List Str → List Str → PyResult (List Value)
  | [], _ => .ok []
  | _ :: _, [] => .raise
  | item :: its, ty :: tys =>
    match cast pd item ty, castItems pd its tys with
    | .ok v, .ok vs => .ok (v :: vs)
    | _, _ => .raise

/-- A Python dict with string keys and object-id values, as the list of its
assignments in program order; `d[k] = v` appends.  Lookup returns the most
recent assignment (`none` models a `KeyError`). -/
def pyDictGet (d : List (Str × ℕ)) (k : Str) : Option ℕ :=
  (d.reverse.find? (fun p => p.1 == k)).map (·.2)

/-! ## The track log pass (`process_tracklog_file_v1`) -/

/-- The protocol data `process_tracklog_file_v1` reads: the mission
attribute types (whose count splits each row), the fixed track-log column
types, and the positions `start_key_indexes[T]` / `end_key_indexes[T]` of
the start and end timestamps among the fixed columns. -/
structure TrackProtocol where
  mission_field_types : List Str
  track_field_types : List Str
  s_keyT : ℕ
  e_keyT : ℕ

/-- One row inserted into the track-log feature class: the window
timestamps, the built path (as fixes; the stored geometry is its
`fixCoord` projection), and the cast attribute values. -/
structure TrackRecord where
  start_time : Str
  end_time : Str
  path : List Fix
  values : List Value
deriving DecidableEq, Repr

/-- The row loop of `process_tracklog_file_v1`, with the loop state made
explicit: the carried `last_point`, the fix-stream cursor `points`, and the
insert cursor's next object id.  Returns the inserted records, the
`track_log_oids` dict assignments, and whether the loop aborted with an
uncaught exception (`IndexError` on the key columns, or a raising `cast`;
this loop has no `try`). -/
def process_tracklog_file_v1 (pd : Str → Option ℤ) (proto : TrackProtocol) :
    List (List Str) → Option Fix → List Fix → ℕ →
    List TrackRecord × List (Str × ℕ) × Bool
  | [], _, _, _ => ([], [], false)
  | items :: rows, last_point, points, oid =>
    let protocol_items := items.take proto.mission_field_types.length
    let other_items := items.drop proto.mission_field_types.length
    match other_items.get? proto.s_keyT, other_items.get? proto.e_keyT with
    | some start_time, some end_time =>
      let r := buildTrackLoop start_time end_time points last_point.toList none
      match castItems pd protocol_items proto.mission_field_types,
            castItems pd other_items proto.track_field_types with
      | .ok mv, .ok tv =>
        let rest := process_tracklog_file_v1 pd proto rows r.2.1 r.2.2 (oid + 1)
        (⟨start_time, end_time, r.1, mv ++ tv⟩ :: rest.1,
          (start_time, oid) :: rest.2.1, rest.2.2)
      | _, _ => ([], [], true)
    | _, _ => ([], [], true)

/-- The geometry thread of the track-log row loop in isolation: the
successive paths built for a list of `(start_time, end_time)` windows,
threading the carried last point and the fix-stream cursor exactly as
`process_tracklog_file_v1` does. -/
def trackWindowsPass : List (Str × Str) → Option Fix → List Fix → List (List Fix)
  | [], _, _ => []
  | (s, e) :: ws, last_point, points =>
    let r := buildTrackLoop s e points last_point.toList none
    r.1 :: trackWindowsPass ws r.2.1 r.2.2

/-- Well-formedness of a window list against a fix stream (the hypotheses
under which the spec's track invariants hold): every window's end timestamp
occurs in the stream portion the window reads, its start timestamp occurs
there too or is exactly the carried-over timestamp, and `start ≤ end`. -/
def windowsOk (carried : Option Str) : List (Str × Str) → List Fix → Bool
  | [], _ => true
  | (s, e) :: ws, points =>
    let r := buildTrackLoop s e points [] none
    decide (s ≤ e) && points.any (fun f => f.ts == e) &&
      (points.any (fun f => f.ts == s) || carried == some s) &&
      windowsOk (some e) ws r.2.2

/-! ## The GPS point pass (`process_gpspoints_file_v1`) -/

/-- The protocol data `process_gpspoints_file_v1` reads: the column types
and the `key_indexes` (timestamp, longitude, latitude) positions. -/
structure GpsProtocol where
  field_types : List Str
  keyT : ℕ
  keyX : ℕ
  keyY : ℕ

/-- One row inserted into the GPS points feature class.  `track_oid` is
`none` when the `TrackLog_ID` column is absent (falsy `tracklog_oids`), and
`some v` when the column holds `v` (itself `None` until a lookup ever
succeeds). -/
structure GpsRow where
  shape : Dec × Dec
  values : List Value
  track_oid : Option (Option ℕ)
deriving DecidableEq, Repr

/-- Python truthiness of the `tracklog_oids` argument (`None` and the empty
dict are falsy). -/
def hasOids (tracklog_oids : Option (List (Str × ℕ))) : Bool :=
  match tracklog_oids with
  | none => false
  | some d => !d.isEmpty

/-- The row loop of `process_gpspoints_file_v1`, with the loop state made
explicit: the persistent `current_track_oid` and the insert cursor's next
object id.  Each line is already split on commas into tokens.  Returns the
inserted rows, the `results` dict assignments, and whether the loop aborted
with an uncaught exception (`IndexError`/`ValueError` building the shape,
or a raising `cast`; this loop has no `try` around those).  A `KeyError`
from the `tracklog_oids` lookup is caught and leaves `current_track_oid`
unchanged. -/
def process_gpspoints_file_v1 (pd : Str → Option ℤ) (proto : GpsProtocol)
    (tracklog_oids : Option (List (Str × ℕ))) :
    List (List Str) → Option ℕ → ℕ → List GpsRow × List (Str × ℕ) × Bool
  | [], _, _ => ([], [], false)
  | items :: rows, current_track_oid, oid =>
    match (items.get? proto.keyX).bind maybe_float,
          (items.get? proto.keyY).bind maybe_float,
          items.get? proto.keyT with
    | some qx, some qy, some ts =>
      match castItems pd items proto.field_types with
      | .ok vs =>
        let cur2 :=
          if hasOids tracklog_oids then
            match pyDictGet (tracklog_oids.getD []) ts with
            | some o => some o
            | none => current_track_oid
          else current_track_oid
        let fk : Option (Option ℕ) := if hasOids tracklog_oids then some cur2 else none
        let rest := process_gpspoints_file_v1 pd proto tracklog_oids rows cur2 (oid + 1)
        (⟨(qx, qy), vs, fk⟩ :: rest.1, (ts, oid) :: rest.2.1, rest.2.2)
      | .raise => ([], [], true)
    | _, _, _ => ([], [], true)

/-! ## The feature pass (`process_feature_file_v1`) -/

/-- The protocol data `process_feature_file_v1` reads: the dynamic feature
attribute types (from the schema resolver; their count splits each row),
the fixed feature column types with their field map and key indexes, and
the observation column types with their field map and key indexes. -/
structure FeatureProtocol where
  feature_field_types : List Str
  feature_types : List Str
  feature_field_map : List ℕ
  f_keyT : ℕ
  f_keyX : ℕ
  f_keyY : ℕ
  observation_types : List Str
  observation_field_map : List ℕ
  o_keyT : ℕ
  o_keyX : ℕ
  o_keyY : ℕ

/-- `filter_items_by_index(items, indexes)` from the source: the re-ordered
subset of `items` at `indexes`; an out-of-range index is an uncaught
`IndexError`. -/
def filter_items_by_index (items : List Str) : List ℕ → PyResult (List Str)
  | [] => .ok []
  | i :: idxs =>
    match items.get? i, filter_items_by_index items idxs with
    | some v, .ok vs => .ok (v :: vs)
    | _, _ => .raise

/-- One row inserted into the observation table. -/
structure ObservationRecord where
  shape : Dec × Dec
  values : List Value
  gps_oid : Option ℕ
deriving DecidableEq, Repr

/-- One row inserted into a feature table; `observation_oid` is the id
appended after the observation insert. -/
structure FeatureRecord where
  shape : Dec × Dec
  values : List Value
  gps_oid : Option ℕ
  observation_oid : ℕ
deriving DecidableEq, Repr

/-- An observable step of the feature row loop: a skipped-row warning
(`arcpy.AddWarning`) naming the table and the raw row, or an insert on one
of the two cursors together with the object id it returned. -/
inductive FEvent where
  | warn (table : Str) (line : List Str)
  | insertObservation (oid : ℕ) (rec : ObservationRecord)
  | insertFeature (oid : ℕ) (rec : FeatureRecord)
deriving DecidableEq, Repr

/-- The row loop of `process_feature_file_v1`, with the two insert cursors'
next object ids made explicit.  An empty line breaks out of the loop.  Key
extraction and shape parsing (before the `try`) abort the file on failure;
a failure inside the construction `try` emits a warning naming the table
and the raw row and continues with the next row; on success the observation
is inserted first and its returned id is appended to the feature before the
feature insert.  Returns the event list and the abort flag. -/
def process_feature_file_v1 (pd : Str → Option ℤ) (proto : FeatureProtocol)
    (gps_points_list : List (Str × ℕ)) (feature_table : Str) :
    List (List Str) → ℕ → ℕ → List FEvent × Bool
  | [], _, _ => ([], false)
  | line :: rows, obs_oid, feat_oid =>
    if line.isEmpty then ([], false)
    else
      let protocol_items := line.take proto.feature_field_types.length
      let other_items := line.drop proto.feature_field_types.length
      match filter_items_by_index other_items proto.feature_field_map,
            filter_items_by_index other_items proto.observation_field_map with
      | .ok feature_items, .ok observe_items =>
        match feature_items.get? proto.f_keyT,
              (feature_items.get? proto.f_keyX).bind maybe_float,
              (feature_items.get? proto.f_keyY).bind maybe_float with
        | some feature_timestamp, some fqx, some fqy =>
          match observe_items.get? proto.o_keyT,
                (observe_items.get? proto.o_keyX).bind maybe_float,
                (observe_items.get? proto.o_keyY).bind maybe_float with
          | some observation_timestamp, some oqx, some oqy =>
            let feature_gps_oid := pyDictGet gps_points_list feature_timestamp
            let observation_gps_oid := pyDictGet gps_points_list observation_timestamp
            match castItems pd protocol_items proto.feature_field_types,
                  castItems pd feature_items proto.feature_types,
                  castItems pd observe_items proto.observation_types with
            | .ok dyn_values, .ok feature_values, .ok observe_values =>
              let obs : ObservationRecord := ⟨(oqx, oqy), observe_values, observation_gps_oid⟩
              let feat : FeatureRecord :=
                ⟨(fqx, fqy), dyn_values ++ feature_values, feature_gps_oid, obs_oid⟩
              let rest := process_feature_file_v1 pd proto gps_points_list feature_table
                rows (obs_oid + 1) (feat_oid + 1)
              (.insertObservation obs_oid obs :: .insertFeature feat_oid feat :: rest.1,
                rest.2)
            | _, _, _ =>
              let rest := process_feature_file_v1 pd proto gps_points_list feature_table
                rows obs_oid feat_oid
              (.warn feature_table line :: rest.1, rest.2)
          | _, _, _ => ([], true)
        | _, _, _ => ([], true)
      | _, _ => ([], true)

/-! ## Lemmas about the track loop -/

theorem buildTrackLoop_nil (s e : Str) (path : List Fix) (pt : Option Fix) :
    buildTrackLoop s e [] path pt = (path, pt, []) := rfl

theorem buildTrackLoop_cons_lt (s e : Str) (f : Fix) (rest path : List Fix)
    (pt : Option Fix) (h : f.ts < s) :
    buildTrackLoop s e (f :: rest) path pt = buildTrackLoop s e rest [] pt := by
  simp only [buildTrackLoop]
  rw [if_pos (le_of_lt h), if_pos h]

theorem buildTrackLoop_cons_eq (s e : Str) (f : Fix) (rest path : List Fix)
    (pt : Option Fix) (h : f.ts = s) :
    buildTrackLoop s e (f :: rest) path pt =
      if f.ts = e then ([f], some f, rest)
      else buildTrackLoop s e rest [f] (some f) := by
  simp only [buildTrackLoop]
  rw [if_pos (le_of_eq h), if_neg (by simp [h])]
  simp

theorem buildTrackLoop_cons_gt (s e : Str) (f : Fix) (rest path : List Fix)
    (pt : Option Fix) (h : s < f.ts) :
    buildTrackLoop s e (f :: rest) path pt =
      if f.ts = e then (path ++ [f], some f, rest)
      else buildTrackLoop s e rest (path ++ [f]) (some f) := by
  simp only [buildTrackLoop]
  rw [if_neg (not_le.mpr h), if_neg (not_lt.mpr (le_of_lt h))]

theorem getLast?_cons_or {α : Type} (a : α) (l : List α) :
    (a :: l).getLast? = (l.getLast?).or (some a) := by
  cases l with
  | nil => rfl
  | cons b t =>
    rw [List.getLast?_cons_cons]
    cases h : (b :: t).getLast? with
    | none => exact absurd h (by simp [List.getLast?_isSome])
    | some y => rfl

/-- The final `point` of the loop is the last appended fix, or the incoming
`point` when nothing is appended; it never falls back to the path's carried
first element. -/
theorem buildTrackLoop_point (s e : Str) :
    ∀ (stream path : List Fix) (pt : Option Fix),
      (buildTrackLoop s e stream path pt).2.1 =
        ((appendedFixes s e stream).getLast?).or pt := by
  intro stream
  induction stream with
  | nil => intro path pt; simp [buildTrackLoop, appendedFixes]
  | cons f rest ih =>
    intro path pt
    by_cases hlt : f.ts < s
    · rw [buildTrackLoop_cons_lt s e f rest path pt hlt, ih]
      simp [appendedFixes, hlt]
    · have hstep :
          buildTrackLoop s e (f :: rest) path pt =
            if f.ts = e then ((if f.ts ≤ s then [] else path) ++ [f], some f, rest)
            else buildTrackLoop s e rest ((if f.ts ≤ s then [] else path) ++ [f]) (some f) := by
        simp only [buildTrackLoop]
        rw [if_neg hlt]
      by_cases he : f.ts = e
      · rw [hstep, if_pos he]
        have happ : appendedFixes s e (f :: rest) = [f] := by
          simp only [appendedFixes, if_neg hlt, if_pos he]
        rw [happ]
        rfl
      · rw [hstep, if_neg he, ih]
        simp only [appendedFixes, if_neg hlt, if_neg he]
        rw [getLast?_cons_or]
        cases h : (appendedFixes s e rest).getLast? <;> simp [Option.or]

/-- Reaching the end fix: if the stream is `pre ++ fe :: post` with `fe` at
the window's end time, every fix of `pre` strictly earlier than `fe` and
`pre` strictly increasing, the loop consumes exactly through `fe`, keeps the
incoming path only when nothing resets it, keeps the `pre` fixes at or after
the start time, and returns `fe` as the new last point with `post` as the
cursor. -/
theorem buildTrackLoop_to_end (s : Str) :
    ∀ (pre : List Fix) (fe : Fix) (post p0 : List Fix) (pt0 : Option Fix),
      (∀ f ∈ pre, f.ts < fe.ts) →
      pre.Pairwise (fun a b => a.ts < b.ts) →
      s ≤ fe.ts →
      buildTrackLoop s fe.ts (pre ++ fe :: post) p0 pt0 =
        ((if (∀ f ∈ pre, s < f.ts) ∧ s < fe.ts then p0 else []) ++
          pre.filter (fun f => decide (s ≤ f.ts)) ++ [fe], some fe, post) := by
  intro pre
  induction pre with
  | nil =>
    intro fe post p0 pt0 _ _ hse
    rcases lt_or_eq_of_le hse with hlt | heq
    · rw [List.nil_append, buildTrackLoop_cons_gt s fe.ts fe post p0 pt0 hlt, if_pos rfl]
      simp [hlt]
    · rw [List.nil_append, buildTrackLoop_cons_eq s fe.ts fe post p0 pt0 heq.symm,
        if_pos rfl]
      simp [← heq]
  | cons g pre' ih =>
    intro fe post p0 pt0 hlt hpw hse
    rw [List.pairwise_cons] at hpw
    have hglt : g.ts < fe.ts := hlt g (List.mem_cons_self g pre')
    have hlt' : ∀ f ∈ pre', f.ts < fe.ts := fun f hf => hlt f (List.mem_cons_of_mem g hf)
    rcases lt_trichotomy g.ts s with hg | hg | hg
    · rw [List.cons_append, buildTrackLoop_cons_lt s fe.ts g _ p0 pt0 hg,
        ih fe post [] pt0 hlt' hpw.2 hse]
      have hc1 : ¬ ((∀ f ∈ g :: pre', s < f.ts) ∧ s < fe.ts) := by
        rintro ⟨h1, _⟩
        exact absurd (h1 g (List.mem_cons_self g pre')) (lt_asymm hg)
      rw [if_neg hc1]
      have : (g :: pre').filter (fun f => decide (s ≤ f.ts)) =
          pre'.filter (fun f => decide (s ≤ f.ts)) := by
        simp [List.filter_cons, not_le.mpr hg]
      rw [this, ite_self]
    · rw [List.cons_append, buildTrackLoop_cons_eq s fe.ts g _ p0 pt0 hg,
        if_neg (ne_of_lt hglt),
        ih fe post [g] (some g) hlt' hpw.2 hse]
      have hc' : (∀ f ∈ pre', s < f.ts) ∧ s < fe.ts := by
        constructor
        · intro f hf; rw [← hg]; exact hpw.1 f hf
        · rw [← hg]; exact hglt
      rw [if_pos hc']
      have hc1 : ¬ ((∀ f ∈ g :: pre', s < f.ts) ∧ s < fe.ts) := by
        rintro ⟨h1, _⟩
        exact absurd (h1 g (List.mem_cons_self g pre')) (by rw [hg]; exact lt_irrefl s)
      rw [if_neg hc1]
      have : (g :: pre').filter (fun f => decide (s ≤ f.ts)) =
          g :: pre'.filter (fun f => decide (s ≤ f.ts)) := by
        simp [List.filter_cons, le_of_eq hg.symm]
      rw [this]
      simp
    · rw [List.cons_append, buildTrackLoop_cons_gt s fe.ts g _ p0 pt0 hg,
        if_neg (ne_of_lt hglt),
        ih fe post (p0 ++ [g]) (some g) hlt' hpw.2 hse]
      have hc' : (∀ f ∈ pre', s < f.ts) ∧ s < fe.ts := by
        constructor
        · intro f hf; exact hg.trans (hpw.1 f hf)
        · exact hg.trans hglt
      rw [if_pos hc']
      have hc1 : (∀ f ∈ g :: pre', s < f.ts) ∧ s < fe.ts := by
        constructor
        · intro f hf
          rcases List.mem_cons.mp hf with rfl | hf'
          · exact hg
          · exact hg.trans (hpw.1 f hf')
        · exact hg.trans hglt
      rw [if_pos hc1]
      have : (g :: pre').filter (fun f => decide (s ≤ f.ts)) =
          g :: pre'.filter (fun f => decide (s ≤ f.ts)) := by
        simp [List.filter_cons, le_of_lt hg]
      rw [this]
      simp

/-! ## The track pass invariants -/

/-- The spec's Track Record invariant for one window `(start, end)` and the
path built for it: non-empty, time-ordered, first point at or before the
window start, last point at or after the window end. -/
def TrackPathOk (w : Str × Str) (path : List Fix) : Prop :=
  path ≠ [] ∧ path.Pairwise (fun a b => a.ts ≤ b.ts) ∧
    (∃ h, path.head? = some h ∧ h.ts ≤ w.1) ∧
    (∃ l, path.getLast? = some l ∧ w.2 ≤ l.ts)

theorem trackWindowsPass_ok :
    ∀ (windows : List (Str × Str)) (points : List Fix) (prior : Option Fix),
      points.Pairwise (fun a b => a.ts < b.ts) →
      (∀ p, prior = some p → ∀ f ∈ points, p.ts < f.ts) →
      windowsOk (prior.map Fix.ts) windows points = true →
      List.Forall₂ TrackPathOk windows (trackWindowsPass windows prior points) := by
  intro windows
  induction windows with
  | nil =>
    intro points prior _ _ _
    exact List.Forall₂.nil
  | cons w ws ih =>
    obtain ⟨s, e⟩ := w
    intro points prior hsort hinv hok
    have hsortAll := hsort
    simp only [windowsOk, Bool.and_eq_true, decide_eq_true_eq, List.any_eq_true,
      beq_iff_eq, Bool.or_eq_true] at hok
    obtain ⟨⟨⟨hse, fe, hfe_mem, hfe_ts⟩, hstart⟩, hok'⟩ := hok
    subst hfe_ts
    obtain ⟨pre, post, rfl⟩ := List.append_of_mem hfe_mem
    rw [List.pairwise_append] at hsort
    obtain ⟨hpw_pre, hpw_rest, hcross⟩ := hsort
    rw [List.pairwise_cons] at hpw_rest
    obtain ⟨hfe_post, hpw_post⟩ := hpw_rest
    have hlt_pre : ∀ f ∈ pre, f.ts < fe.ts := fun f hf =>
      hcross f hf fe (List.mem_cons_self fe post)
    have hrun := buildTrackLoop_to_end s pre fe post prior.toList none hlt_pre hpw_pre hse
    have hrun0 := buildTrackLoop_to_end s pre fe post [] none hlt_pre hpw_pre hse
    rw [hrun0] at hok'
    simp only [trackWindowsPass]
    rw [hrun]
    refine List.Forall₂.cons ?_ (ih post (some fe) hpw_post ?_ ?_)
    · constructor
      · simp
      constructor
      · -- time-ordering: the path is a sublist of `prior.toList ++ points`
        have hsubP : List.Sublist
            (if (∀ f ∈ pre, s < f.ts) ∧ s < fe.ts then prior.toList else [])
            prior.toList := by
          by_cases hc : (∀ f ∈ pre, s < f.ts) ∧ s < fe.ts
          · rw [if_pos hc]
          · rw [if_neg hc]; exact List.nil_sublist _
        have hsubF : List.Sublist
            (pre.filter (fun f => decide (s ≤ f.ts)) ++ [fe]) (pre ++ fe :: post) :=
          List.Sublist.append (List.filter_sublist pre)
            (List.Sublist.cons₂ fe (List.nil_sublist post))
        have hsub := List.Sublist.append hsubP hsubF
        have hpairAll :
            (prior.toList ++ (pre ++ fe :: post)).Pairwise (fun a b => a.ts < b.ts) := by
          rw [List.pairwise_append]
          refine ⟨?_, hsortAll, ?_⟩
          · cases prior with
            | none => simp
            | some p => simp
          · intro a ha b hb
            cases prior with
            | none => simp at ha
            | some p =>
              simp only [Option.toList_some, List.mem_singleton] at ha
              subst ha
              exact hinv a rfl b hb
        rw [List.append_assoc]
        exact (hpairAll.sublist hsub).imp fun h => le_of_lt h
      constructor
      · -- the first path point is at or before the window start
        rcases hstart with hfs | hcar
        · obtain ⟨f, hfmem, hf_ts⟩ := hfs
          rcases List.mem_append.mp hfmem with hfpre | hfrest
          · have hcond : ¬ ((∀ g ∈ pre, s < g.ts) ∧ s < fe.ts) := by
              rintro ⟨h1, _⟩
              exact absurd (h1 f hfpre) (by rw [hf_ts]; exact lt_irrefl s)
            rw [if_neg hcond, List.nil_append]
            obtain ⟨a, b, rfl⟩ := List.append_of_mem hfpre
            rw [List.pairwise_append] at hpw_pre
            have ha_lt : ∀ x ∈ a, x.ts < s := fun x hx => by
              rw [← hf_ts]
              exact hpw_pre.2.2 x hx f (List.mem_cons_self f b)
            have hfa : a.filter (fun g => decide (s ≤ g.ts)) = [] :=
              List.filter_eq_nil_iff.mpr (fun x hx => by
                simp only [decide_eq_true_eq, not_le]
                exact ha_lt x hx)
            rw [List.filter_append, hfa, List.nil_append, List.filter_cons,
              if_pos (by simp [hf_ts])]
            exact ⟨f, rfl, le_of_eq hf_ts⟩
          · rcases List.mem_cons.mp hfrest with hffe | hfpost
            · subst hffe
              have hcond : ¬ ((∀ g ∈ pre, s < g.ts) ∧ s < f.ts) := by
                rintro ⟨_, h2⟩
                rw [hf_ts] at h2
                exact lt_irrefl s h2
              have hfpre' : pre.filter (fun g => decide (s ≤ g.ts)) = [] :=
                List.filter_eq_nil_iff.mpr (fun x hx => by
                  simp only [decide_eq_true_eq, not_le]
                  calc x.ts < f.ts := hlt_pre x hx
                    _ = s := hf_ts)
              rw [if_neg hcond, List.nil_append, hfpre', List.nil_append]
              exact ⟨f, rfl, le_of_eq hf_ts⟩
            · exact absurd (hfe_post f hfpost) (by rw [hf_ts]; exact not_lt.mpr hse)
        · obtain ⟨p, hp, hp_ts⟩ := Option.map_eq_some'.mp hcar
          have hcond : (∀ g ∈ pre, s < g.ts) ∧ s < fe.ts := by
            constructor
            · intro g hg
              rw [← hp_ts]
              exact hinv p hp g (List.mem_append_left _ hg)
            · rw [← hp_ts]
              exact hinv p hp fe (List.mem_append_right _ (List.mem_cons_self fe post))
          rw [if_pos hcond, hp]
          exact ⟨p, rfl, le_of_eq hp_ts⟩
      · -- the last path point is at or after the window end
        rw [List.getLast?_concat]
        exact ⟨fe, rfl, le_refl _⟩
    · rintro p hp f hf
      cases hp
      exact hfe_post f hf
    · simpa using hok'

/-- When every remaining fix is strictly after the window start, nothing
resets the path, so the incoming path stays as a prefix of the result. -/
theorem buildTrackLoop_keep_path (s e : Str) :
    ∀ (stream p0 : List Fix) (pt0 : Option Fix),
      (∀ f ∈ stream, s < f.ts) →
      ∃ l, (buildTrackLoop s e stream p0 pt0).1 = p0 ++ l := by
  intro stream
  induction stream with
  | nil =>
    intro p0 pt0 _
    exact ⟨[], by simp [buildTrackLoop]⟩
  | cons f rest ih =>
    intro p0 pt0 hall
    have hf : s < f.ts := hall f (List.mem_cons_self f rest)
    rw [buildTrackLoop_cons_gt s e f rest p0 pt0 hf]
    by_cases he : f.ts = e
    · rw [if_pos he]
      exact ⟨[f], rfl⟩
    · rw [if_neg he]
      obtain ⟨l, hl⟩ := ih (p0 ++ [f]) (some f)
        (fun g hg => hall g (List.mem_cons_of_mem f hg))
      exact ⟨f :: l, by rw [hl, List.append_assoc]; rfl⟩

/-- Bridge: on a run of the track-log row loop that does not abort, the
paths of the emitted records are exactly the geometry thread
`trackWindowsPass` over the records' windows. -/
theorem tracklog_paths_eq (pd : Str → Option ℤ) (proto : TrackProtocol) :
    ∀ (rows : List (List Str)) (last_point : Option Fix) (points : List Fix) (oid : ℕ)
      (recs : List TrackRecord) (oids : List (Str × ℕ)),
      process_tracklog_file_v1 pd proto rows last_point points oid = (recs, oids, false) →
      recs.map TrackRecord.path =
        trackWindowsPass (recs.map fun r => (r.start_time, r.end_time)) last_point points := by
  intro rows
  induction rows with
  | nil =>
    intro last_point points oid recs oids h
    simp only [process_tracklog_file_v1, Prod.mk.injEq] at h
    obtain ⟨rfl, rfl, -⟩ := h
    simp [trackWindowsPass]
  | cons items rows ih =>
    intro last_point points oid recs oids h
    simp only [process_tracklog_file_v1] at h
    cases hs : ((items.drop proto.mission_field_types.length).get? proto.s_keyT) with
    | none =>
      rw [hs] at h
      cases he : ((items.drop proto.mission_field_types.length).get? proto.e_keyT) <;>
        rw [he] at h <;> simp at h
    | some start_time =>
      rw [hs] at h
      cases he : ((items.drop proto.mission_field_types.length).get? proto.e_keyT) with
      | none => rw [he] at h; simp at h
      | some end_time =>
        rw [he] at h
        cases hm : castItems pd (items.take proto.mission_field_types.length)
            proto.mission_field_types with
        | raise =>
          rw [hm] at h
          cases ht : castItems pd (items.drop proto.mission_field_types.length)
              proto.track_field_types <;> rw [ht] at h <;> simp at h
        | ok mv =>
          rw [hm] at h
          cases ht : castItems pd (items.drop proto.mission_field_types.length)
              proto.track_field_types with
          | raise => rw [ht] at h; simp at h
          | ok tv =>
            rw [ht] at h
            have h1 := congrArg Prod.fst h
            have h2 := congrArg (fun t : List TrackRecord × List (Str × ℕ) × Bool
              => t.2.2) h
            simp only at h1 h2
            subst h1
            simp only [List.map_cons, trackWindowsPass]
            congr 1
            apply ih
            rw [← h2]

/-! ## Concrete sample data

The spec's concrete scenario: fixes `t=10,1.0,2.0` / `t=20,1.5,2.5` /
`t=30,2.0,3.0` (decimals as `Dec` values, e.g. `1.5` is `⟨15, -1⟩`). -/

def f10 : Fix := ⟨"10".data, ⟨10, -1⟩, ⟨20, -1⟩⟩

def f20 : Fix := ⟨"20".data, ⟨15, -1⟩, ⟨25, -1⟩⟩

def f30 : Fix := ⟨"30".data, ⟨20, -1⟩, ⟨30, -1⟩⟩

/-! ## Claims -/

/-- Claim C1: for every `build_track_geometry` call over an ordered fix
stream with a window `(windowStart, windowEnd)`: the path starts from the
carried-over prior last point if one exists (else empty); every fix read
with timestamp ≤ windowStart resets the accumulated path to empty; every
fix with timestamp < windowStart is skipped without appending; every other
fix is appended in stream order; consumption stops at the first (kept) fix
whose timestamp equals windowEnd, which becomes the new carried-over point.
The concrete scenario: fixes t=10 (1.0,2.0), t=20 (1.5,2.5), t=30 (2.0,3.0)
with window start=10, end=30 yield the path
[(1.0,2.0),(1.5,2.5),(2.0,3.0)]. -/
theorem c1_build_track_geometry_window (s e : Str) :
    (∀ prior, build_track_geometry [] prior s e =
      (⟨[prior.toList.map fixCoord], 4326⟩, none, [])) ∧
    (∀ (f : Fix) rest path pt, f.ts < s →
      buildTrackLoop s e (f :: rest) path pt = buildTrackLoop s e rest [] pt) ∧
    (∀ (f : Fix) rest path pt, f.ts = s →
      buildTrackLoop s e (f :: rest) path pt =
        if f.ts = e then ([f], some f, rest)
        else buildTrackLoop s e rest [f] (some f)) ∧
    (∀ (f : Fix) rest path pt, s < f.ts →
      buildTrackLoop s e (f :: rest) path pt =
        if f.ts = e then (path ++ [f], some f, rest)
        else buildTrackLoop s e rest (path ++ [f]) (some f)) ∧
    build_track_geometry [f10, f20, f30] none "10".data "30".data =
      (⟨[[(⟨10, -1⟩, ⟨20, -1⟩), (⟨15, -1⟩, ⟨25, -1⟩), (⟨20, -1⟩, ⟨30, -1⟩)]], 4326⟩,
        some f30, []) := by
  refine ⟨?_, ?_, ?_, ?_, by decide⟩
  · intro prior
    simp [build_track_geometry, buildTrackLoop]
  · intro f rest path pt h
    exact buildTrackLoop_cons_lt s e f rest path pt h
  · intro f rest path pt h
    exact buildTrackLoop_cons_eq s e f rest path pt h
  · intro f rest path pt h
    exact buildTrackLoop_cons_gt s e f rest path pt h

theorem c1_witness :
    ("05".data : Str) < "10".data ∧
      buildTrackLoop "10".data "30".data [⟨"05".data, ⟨0, 0⟩, ⟨0, 0⟩⟩]
          [⟨"01".data, ⟨9, 9⟩, ⟨9, 9⟩⟩] none =
        buildTrackLoop "10".data "30".data [] [] none :=
  ⟨by decide,
    (c1_build_track_geometry_window "10".data "30".data).2.1
      ⟨"05".data, ⟨0, 0⟩, ⟨0, 0⟩⟩ [] [⟨"01".data, ⟨9, 9⟩, ⟨9, 9⟩⟩] none (by decide)⟩

/-- Claim C10: the carried-over point returned by `build_track_geometry` is
the last fix appended during that call (its coordinates are the carried
coordinate pair), and when no fix is appended it is `None` even when a
prior carried-over point was passed in — the carry-over is dropped across a
window that matches no fixes. -/
theorem c10_carryover_last_appended (point_file : List Fix)
    (prior_last_point : Option Fix) (start_time end_time : Str) :
    (build_track_geometry point_file prior_last_point start_time end_time).2.1 =
        (appendedFixes start_time end_time point_file).getLast? ∧
      (appendedFixes start_time end_time point_file = [] →
        (build_track_geometry point_file prior_last_point start_time end_time).2.1 =
          none) := by
  have h1 : (build_track_geometry point_file prior_last_point start_time end_time).2.1 =
      (appendedFixes start_time end_time point_file).getLast? := by
    simp only [build_track_geometry]
    rw [buildTrackLoop_point]
    cases (appendedFixes start_time end_time point_file).getLast? <;> rfl
  exact ⟨h1, fun h => by rw [h1, h]; rfl⟩

theorem c10_witness :
    appendedFixes "10".data "30".data [⟨"05".data, ⟨0, 0⟩, ⟨0, 0⟩⟩] = [] ∧
      (build_track_geometry [⟨"05".data, ⟨0, 0⟩, ⟨0, 0⟩⟩]
        (some ⟨"01".data, ⟨9, 9⟩, ⟨9, 9⟩⟩) "10".data "30".data).2.1 = none :=
  ⟨by decide,
    (c10_carryover_last_appended [⟨"05".data, ⟨0, 0⟩, ⟨0, 0⟩⟩]
      (some ⟨"01".data, ⟨9, 9⟩, ⟨9, 9⟩⟩) "10".data "30".data).2 (by decide)⟩

theorem forall₂_map_same {α β γ : Type} (P : β → γ → Prop) (f : α → β) (g : α → γ) :
    ∀ (l : List α), List.Forall₂ P (l.map f) (l.map g) → ∀ x ∈ l, P (f x) (g x) := by
  intro l
  induction l with
  | nil => intro _ x hx; cases hx
  | cons a t ih =>
    intro h x hx
    rw [List.map_cons, List.map_cons] at h
    cases h with
    | cons hpa htail =>
      rcases List.mem_cons.mp hx with rfl | hx'
      · exact hpa
      · exact ih htail x hx'

/-- Claim C2 (amended): every Track Record emitted by a non-aborting run of
the track-log pass over a strictly time-ordered fix stream has a non-empty,
time-ordered path whose first point is at or before the window start and
whose last point is at or after the window end — provided the records'
windows are covered by the stream (`windowsOk`: each window's end timestamp
occurs in the stream portion it reads, its start timestamp occurs there or
is exactly the carried-over timestamp, and start ≤ end). -/
theorem c2_track_record_invariants (pd : Str → Option ℤ) (proto : TrackProtocol)
    (rows : List (List Str)) (points : List Fix) (recs : List TrackRecord)
    (oids : List (Str × ℕ)) (oid : ℕ)
    (hrun : process_tracklog_file_v1 pd proto rows none points oid = (recs, oids, false))
    (hsort : points.Pairwise (fun a b => a.ts < b.ts))
    (hok : windowsOk none (recs.map fun r => (r.start_time, r.end_time)) points = true) :
    ∀ r ∈ recs, TrackPathOk (r.start_time, r.end_time) r.path := by
  have hbridge := tracklog_paths_eq pd proto rows none points oid recs oids hrun
  have hforall := trackWindowsPass_ok (recs.map fun r => (r.start_time, r.end_time))
    points none hsort (by intro p h; simp at h) (by simpa using hok)
  rw [← hbridge] at hforall
  exact forall₂_map_same TrackPathOk _ _ recs hforall

theorem c2_witness :
    process_tracklog_file_v1 (fun _ => none) ⟨[], ["TEXT".data, "TEXT".data], 0, 1⟩
        [["10".data, "20".data], ["20".data, "30".data]] none [f10, f20, f30] 1 =
      ([⟨"10".data, "20".data, [f10, f20], [.text "10".data, .text "20".data]⟩,
        ⟨"20".data, "30".data, [f20, f30], [.text "20".data, .text "30".data]⟩],
        [("10".data, 1), ("20".data, 2)], false) ∧
      TrackPathOk ("10".data, "20".data) [f10, f20] :=
  ⟨by decide,
    c2_track_record_invariants (fun _ => none) ⟨[], ["TEXT".data, "TEXT".data], 0, 1⟩
      [["10".data, "20".data], ["20".data, "30".data]] [f10, f20, f30]
      [⟨"10".data, "20".data, [f10, f20], [.text "10".data, .text "20".data]⟩,
        ⟨"20".data, "30".data, [f20, f30], [.text "20".data, .text "30".data]⟩]
      [("10".data, 1), ("20".data, 2)] 1 (by decide) (by decide) (by decide)
      ⟨"10".data, "20".data, [f10, f20], [.text "10".data, .text "20".data]⟩
      (by decide)⟩

/-- Claim C2, counterexample to the unamended claim: over the time-ordered
one-fix stream `[f10]`, the window `(10, 30)` emits a Track Record whose
path is `[f10]`, and the invariant `window end ≤ last point timestamp`
fails (`30 ≰ 10`) — the stream ends before the window does. -/
theorem c2_counterexample :
    process_tracklog_file_v1 (fun _ => none) ⟨[], ["TEXT".data, "TEXT".data], 0, 1⟩
        [["10".data, "30".data]] none [f10] 1 =
      ([⟨"10".data, "30".data, [f10], [.text "10".data, .text "30".data]⟩],
        [("10".data, 1)], false) ∧
      [f10].Pairwise (fun a b => a.ts < b.ts) ∧
      ¬ TrackPathOk ("10".data, "30".data) [f10] := by
  refine ⟨by decide, by decide, ?_⟩
  rintro ⟨-, -, -, l, hl, hle⟩
  simp only [List.getLast?_singleton, Option.some.injEq] at hl
  subst hl
  exact absurd hle (by decide)

/-- Claim C7: for two adjacent touching windows `(t1, t2)` and `(t2, t3)`
processed in order over a strictly time-ordered fix stream containing a fix
at `t2` (with `t1 ≤ t2`), that fix is both the last point of the first
emitted path and the first point of the second emitted path. -/
theorem c7_carryover_touching_windows (t1 t2 t3 : Str) (points : List Fix)
    (hsort : points.Pairwise (fun a b => a.ts < b.ts))
    (hmem : ∃ f ∈ points, f.ts = t2) (h12 : t1 ≤ t2) :
    ∃ f2 p1 p2, f2.ts = t2 ∧
      trackWindowsPass [(t1, t2), (t2, t3)] none points = [p1, p2] ∧
      p1.getLast? = some f2 ∧ p2.head? = some f2 := by
  obtain ⟨fe, hfe_mem, hts⟩ := hmem
  subst hts
  obtain ⟨pre, post, rfl⟩ := List.append_of_mem hfe_mem
  rw [List.pairwise_append] at hsort
  obtain ⟨hpw_pre, hpw_rest, hcross⟩ := hsort
  rw [List.pairwise_cons] at hpw_rest
  obtain ⟨hfe_post, _⟩ := hpw_rest
  have hlt_pre : ∀ f ∈ pre, f.ts < fe.ts := fun f hf =>
    hcross f hf fe (List.mem_cons_self fe post)
  have hrun := buildTrackLoop_to_end t1 pre fe post [] none hlt_pre hpw_pre h12
  obtain ⟨l, hl⟩ := buildTrackLoop_keep_path fe.ts t3 post [fe] none hfe_post
  simp only [trackWindowsPass, Option.toList_none, Option.toList_some]
  rw [hrun]
  refine ⟨fe, _, _, rfl, rfl, ?_, ?_⟩
  · rw [List.getLast?_concat]
  · show ((buildTrackLoop fe.ts t3 post [fe] none).1).head? = some fe
    rw [hl]
    rfl

theorem c7_witness :
    ∃ f2 p1 p2, f2.ts = "20".data ∧
      trackWindowsPass [("10".data, "20".data), ("20".data, "30".data)] none
        [f10, f20, f30] = [p1, p2] ∧
      p1.getLast? = some f2 ∧ p2.head? = some f2 :=
  c7_carryover_touching_windows "10".data "20".data "30".data [f10, f20, f30]
    (by decide) ⟨f20, by decide, by decide⟩ (by decide)

/-! ## Step equations of the feature row loop -/

/-- A feature row whose key extraction and shape parsing succeed but whose
construction `try` fails (any of the three cast lists raising) is skipped
with a warning naming the table and the raw row; processing continues with
the next row and neither cursor advances. -/
theorem feature_row_skip (pd : Str → Option ℤ) (proto : FeatureProtocol)
    (gps : List (Str × ℕ)) (table : Str) (line : List Str) (rows : List (List Str))
    (o f : ℕ) (fi oi : List Str) (fts : Str) (fqx fqy : Dec) (ots : Str) (oqx oqy : Dec)
    (hne : line ≠ [])
    (hfi : filter_items_by_index (line.drop proto.feature_field_types.length)
      proto.feature_field_map = .ok fi)
    (hoi : filter_items_by_index (line.drop proto.feature_field_types.length)
      proto.observation_field_map = .ok oi)
    (hft : fi.get? proto.f_keyT = some fts)
    (hfx : (fi.get? proto.f_keyX).bind maybe_float = some fqx)
    (hfy : (fi.get? proto.f_keyY).bind maybe_float = some fqy)
    (hot : oi.get? proto.o_keyT = some ots)
    (hox : (oi.get? proto.o_keyX).bind maybe_float = some oqx)
    (hoy : (oi.get? proto.o_keyY).bind maybe_float = some oqy)
    (hfail : castItems pd (line.take proto.feature_field_types.length)
        proto.feature_field_types = .raise ∨
      castItems pd fi proto.feature_types = .raise ∨
      castItems pd oi proto.observation_types = .raise) :
    process_feature_file_v1 pd proto gps table (line :: rows) o f =
      (.warn table line :: (process_feature_file_v1 pd proto gps table rows o f).1,
        (process_feature_file_v1 pd proto gps table rows o f).2) := by
  simp only [process_feature_file_v1]
  rw [if_neg (by simp [List.isEmpty_iff, hne])]
  simp only [hfi, hoi, hft, hfx, hfy, hot, hox, hoy]
  rcases hfail with h | h | h
  · simp only [h]
  · cases hd : castItems pd (line.take proto.feature_field_types.length)
        proto.feature_field_types with
    | raise => simp only [hd]
    | ok dv => simp only [hd, h]
  · cases hd : castItems pd (line.take proto.feature_field_types.length)
        proto.feature_field_types with
    | raise => simp only [hd]
    | ok dv =>
      cases hf2 : castItems pd fi proto.feature_types with
      | raise => simp only [hd, hf2]
      | ok fv => simp only [hd, hf2, h]

/-- A feature row whose key extraction, shape parsing and all three cast
lists succeed inserts the observation first (receiving the observation
cursor's id) and then the feature, whose record carries that id. -/
theorem feature_row_success (pd : Str → Option ℤ) (proto : FeatureProtocol)
    (gps : List (Str × ℕ)) (table : Str) (line : List Str) (rows : List (List Str))
    (o f : ℕ) (fi oi : List Str) (fts : Str) (fqx fqy : Dec) (ots : Str) (oqx oqy : Dec)
    (dv fv ov : List Value)
    (hne : line ≠ [])
    (hfi : filter_items_by_index (line.drop proto.feature_field_types.length)
      proto.feature_field_map = .ok fi)
    (hoi : filter_items_by_index (line.drop proto.feature_field_types.length)
      proto.observation_field_map = .ok oi)
    (hft : fi.get? proto.f_keyT = some fts)
    (hfx : (fi.get? proto.f_keyX).bind maybe_float = some fqx)
    (hfy : (fi.get? proto.f_keyY).bind maybe_float = some fqy)
    (hot : oi.get? proto.o_keyT = some ots)
    (hox : (oi.get? proto.o_keyX).bind maybe_float = some oqx)
    (hoy : (oi.get? proto.o_keyY).bind maybe_float = some oqy)
    (hdv : castItems pd (line.take proto.feature_field_types.length)
      proto.feature_field_types = .ok dv)
    (hfv : castItems pd fi proto.feature_types = .ok fv)
    (hov : castItems pd oi proto.observation_types = .ok ov) :
    process_feature_file_v1 pd proto gps table (line :: rows) o f =
      (.insertObservation o ⟨(oqx, oqy), ov, pyDictGet gps ots⟩ ::
        .insertFeature f ⟨(fqx, fqy), dv ++ fv, pyDictGet gps fts, o⟩ ::
        (process_feature_file_v1 pd proto gps table rows (o + 1) (f + 1)).1,
        (process_feature_file_v1 pd proto gps table rows (o + 1) (f + 1)).2) := by
  simp only [process_feature_file_v1]
  rw [if_neg (by simp [List.isEmpty_iff, hne])]
  simp only [hfi, hoi, hft, hfx, hfy, hot, hox, hoy, hdv, hfv, hov]

/-- Sample feature protocol with one dynamic `DATE` attribute and three
fixed `TEXT` columns shared by the feature and observation projections. -/
def FP : FeatureProtocol :=
  ⟨["DATE".data], ["TEXT".data, "TEXT".data, "TEXT".data], [0, 1, 2], 0, 1, 2,
    ["TEXT".data, "TEXT".data, "TEXT".data], [0, 1, 2], 0, 1, 2⟩

/-- Sample feature protocol with no dynamic attributes and three fixed
`TEXT` columns shared by the feature and observation projections. -/
def FP2 : FeatureProtocol :=
  ⟨[], ["TEXT".data, "TEXT".data, "TEXT".data], [0, 1, 2], 0, 1, 2,
    ["TEXT".data, "TEXT".data, "TEXT".data], [0, 1, 2], 0, 1, 2⟩

/-- A feature row whose dynamic `DATE` attribute is malformed. -/
def L1 : List Str := ["bad".data, "t1".data, "1.0".data, "2.0".data]

/-- A well-formed feature row for `FP2`. -/
def L2 : List Str := ["t1".data, "1.0".data, "2.0".data]

/-- Claim C3 (amended): a failure during the guarded typed-record
construction of a feature row (any of the three cast lists raising) skips
only that row, surfaces a diagnostic naming the table and the raw row, and
continues with the next row.  Track-log rows have no such guard: a raising
cast aborts the file (as does a key-extraction failure), so the claim's
universal "any record kind" does not hold. -/
theorem c3_row_failure_handling :
    (∀ (pd : Str → Option ℤ) (proto : FeatureProtocol) (gps : List (Str × ℕ))
      (table : Str) (line : List Str) (rows : List (List Str)) (o f : ℕ)
      (fi oi : List Str) (fts : Str) (fqx fqy : Dec) (ots : Str) (oqx oqy : Dec),
      line ≠ [] →
      filter_items_by_index (line.drop proto.feature_field_types.length)
        proto.feature_field_map = .ok fi →
      filter_items_by_index (line.drop proto.feature_field_types.length)
        proto.observation_field_map = .ok oi →
      fi.get? proto.f_keyT = some fts →
      (fi.get? proto.f_keyX).bind maybe_float = some fqx →
      (fi.get? proto.f_keyY).bind maybe_float = some fqy →
      oi.get? proto.o_keyT = some ots →
      (oi.get? proto.o_keyX).bind maybe_float = some oqx →
      (oi.get? proto.o_keyY).bind maybe_float = some oqy →
      (castItems pd (line.take proto.feature_field_types.length)
          proto.feature_field_types = .raise ∨
        castItems pd fi proto.feature_types = .raise ∨
        castItems pd oi proto.observation_types = .raise) →
      process_feature_file_v1 pd proto gps table (line :: rows) o f =
        (.warn table line :: (process_feature_file_v1 pd proto gps table rows o f).1,
          (process_feature_file_v1 pd proto gps table rows o f).2)) ∧
    (∀ (pd : Str → Option ℤ) (proto : TrackProtocol) (items : List Str)
      (rows : List (List Str)) (last_point : Option Fix) (points : List Fix) (oid : ℕ)
      (start_time end_time : Str),
      (items.drop proto.mission_field_types.length).get? proto.s_keyT = some start_time →
      (items.drop proto.mission_field_types.length).get? proto.e_keyT = some end_time →
      (castItems pd (items.take proto.mission_field_types.length)
          proto.mission_field_types = .raise ∨
        castItems pd (items.drop proto.mission_field_types.length)
          proto.track_field_types = .raise) →
      process_tracklog_file_v1 pd proto (items :: rows) last_point points oid =
        ([], [], true)) := by
  constructor
  · intro pd proto gps table line rows o f fi oi fts fqx fqy ots oqx oqy
      hne hfi hoi hft hfx hfy hot hox hoy hfail
    exact feature_row_skip pd proto gps table line rows o f fi oi fts fqx fqy ots oqx oqy
      hne hfi hoi hft hfx hfy hot hox hoy hfail
  · intro pd proto items rows last_point points oid start_time end_time hs he hfail
    simp only [process_tracklog_file_v1]
    simp only [hs, he]
    rcases hfail with h | h
    · simp only [h]
    · cases hm : castItems pd (items.take proto.mission_field_types.length)
          proto.mission_field_types with
      | raise => simp only [hm]
      | ok mv => simp only [hm, h]

theorem c3_witness :
    process_feature_file_v1 (fun _ => none) FP [] "Animals".data [L1] 1 1 =
        ([.warn "Animals".data L1], false) ∧
      process_tracklog_file_v1 (fun _ => none) ⟨[], ["DATE".data], 0, 0⟩
        [["bad".data]] none [] 1 = ([], [], true) := by
  constructor
  · have h := c3_row_failure_handling.1 (fun _ => none) FP [] "Animals".data L1 [] 1 1
      ["t1".data, "1.0".data, "2.0".data] ["t1".data, "1.0".data, "2.0".data]
      "t1".data ⟨10, -1⟩ ⟨20, -1⟩ "t1".data ⟨10, -1⟩ ⟨20, -1⟩
      (by decide) (by decide) (by decide) (by decide) (by decide) (by decide)
      (by decide) (by decide) (by decide) (Or.inl (by decide))
    exact h.trans (by decide)
  · exact c3_row_failure_handling.2 (fun _ => none) ⟨[], ["DATE".data], 0, 0⟩
      ["bad".data] [] none [] 1 "bad".data "bad".data
      (by decide) (by decide) (Or.inr (by decide))

/-- Claim C3, counterexample to the unamended claim: a track-log row with a
malformed timestamp aborts the whole file — nothing is emitted and the
error flag is set, although the same second row alone processes fine. -/
theorem c3_counterexample :
    process_tracklog_file_v1 (fun s => if s = "bad".data then none else some 0)
        ⟨[], ["DATE".data], 0, 0⟩ [["bad".data], ["2012".data]] none [] 1 =
      ([], [], true) ∧
      process_tracklog_file_v1 (fun s => if s = "bad".data then none else some 0)
        ⟨[], ["DATE".data], 0, 0⟩ [["2012".data]] none [] 1 =
      ([⟨"2012".data, "2012".data, [], [.date 0]⟩], [("2012".data, 1)], false) :=
  ⟨by decide, by decide⟩

/-- Claim C4: a feature row with malformed feature attributes (a raising
cast in the dynamic or fixed feature list) but valid observation attributes
is skipped atomically: the row produces only a warning, no observation or
feature insert happens for it, and both cursor counters are unchanged for
the following rows. -/
theorem c4_atomic_feature_row_skip (pd : Str → Option ℤ) (proto : FeatureProtocol)
    (gps : List (Str × ℕ)) (table : Str) (line : List Str) (rows : List (List Str))
    (o f : ℕ) (fi oi : List Str) (fts : Str) (fqx fqy : Dec) (ots : Str) (oqx oqy : Dec)
    (ov : List Value)
    (hne : line ≠ [])
    (hfi : filter_items_by_index (line.drop proto.feature_field_types.length)
      proto.feature_field_map = .ok fi)
    (hoi : filter_items_by_index (line.drop proto.feature_field_types.length)
      proto.observation_field_map = .ok oi)
    (hft : fi.get? proto.f_keyT = some fts)
    (hfx : (fi.get? proto.f_keyX).bind maybe_float = some fqx)
    (hfy : (fi.get? proto.f_keyY).bind maybe_float = some fqy)
    (hot : oi.get? proto.o_keyT = some ots)
    (hox : (oi.get? proto.o_keyX).bind maybe_float = some oqx)
    (hoy : (oi.get? proto.o_keyY).bind maybe_float = some oqy)
    (hov : castItems pd oi proto.observation_types = .ok ov)
    (hfail : castItems pd (line.take proto.feature_field_types.length)
        proto.feature_field_types = .raise ∨
      castItems pd fi proto.feature_types = .raise) :
    process_feature_file_v1 pd proto gps table (line :: rows) o f =
      (.warn table line :: (process_feature_file_v1 pd proto gps table rows o f).1,
        (process_feature_file_v1 pd proto gps table rows o f).2) :=
  feature_row_skip pd proto gps table line rows o f fi oi fts fqx fqy ots oqx oqy
    hne hfi hoi hft hfx hfy hot hox hoy
    (hfail.elim Or.inl (fun h => Or.inr (Or.inl h)))

theorem c4_witness :
    process_feature_file_v1 (fun _ => none) FP [] "Animals".data [L1] 1 1 =
      ([.warn "Animals".data L1], false) := by
  have h := c4_atomic_feature_row_skip (fun _ => none) FP [] "Animals".data L1 [] 1 1
    ["t1".data, "1.0".data, "2.0".data] ["t1".data, "1.0".data, "2.0".data]
    "t1".data ⟨10, -1⟩ ⟨20, -1⟩ "t1".data ⟨10, -1⟩ ⟨20, -1⟩
    [.text "t1".data, .text "1.0".data, .text "2.0".data]
    (by decide) (by decide) (by decide) (by decide) (by decide) (by decide)
    (by decide) (by decide) (by decide) (by decide) (Or.inl (by decide))
  exact h.trans (by decide)

/-- Claim C5 (amended): only the feature row loop treats a zero-token row
as an end-of-data sentinel (it breaks out cleanly, processing no further
rows).  In the track-log loop a zero-token row raises an uncaught
`IndexError` on the key columns and aborts the file; in the GPS point loop
an empty physical line yields a single empty token whose coordinate parse
raises, likewise aborting the file. -/
theorem c5_empty_row_handling :
    (∀ (pd : Str → Option ℤ) (proto : FeatureProtocol) (gps : List (Str × ℕ))
      (table : Str) (rows : List (List Str)) (o f : ℕ),
      process_feature_file_v1 pd proto gps table ([] :: rows) o f = ([], false)) ∧
    (∀ (pd : Str → Option ℤ) (proto : TrackProtocol) (rows : List (List Str))
      (last_point : Option Fix) (points : List Fix) (oid : ℕ),
      process_tracklog_file_v1 pd proto ([] :: rows) last_point points oid =
        ([], [], true)) ∧
    (∀ (pd : Str → Option ℤ) (proto : GpsProtocol)
      (toids : Option (List (Str × ℕ))) (rows : List (List Str))
      (cur : Option ℕ) (oid : ℕ),
      process_gpspoints_file_v1 pd proto toids ([[]] :: rows) cur oid =
        ([], [], true)) := by
  refine ⟨?_, ?_, ?_⟩
  · intro pd proto gps table rows o f
    simp [process_feature_file_v1]
  · intro pd proto rows last_point points oid
    simp [process_tracklog_file_v1]
  · intro pd proto toids rows cur oid
    obtain ⟨tys, kT, kX, kY⟩ := proto
    have h0 : maybe_float ([] : Str) = none := by decide
    cases kX with
    | zero => simp [process_gpspoints_file_v1, h0]
    | succ n => simp [process_gpspoints_file_v1]

/-- Claim C5, counterexample to the unamended claim: in the track-log file
a zero-token row is an error that aborts the file (error flag set, the
following valid row never processed), not an end-of-data sentinel. -/
theorem c5_counterexample :
    process_tracklog_file_v1 (fun _ => none) ⟨[], ["TEXT".data, "TEXT".data], 0, 1⟩
      [[], ["10".data, "20".data]] none [f10, f20] 1 = ([], [], true) := by
  decide

/-- Claim C6 (amended): an unresolved correlation timestamp is never an
error.  For feature and observation records the GPS foreign key is left
unset (`None`).  For GPS point records, however, the `except KeyError:
pass` keeps the previous `current_track_oid`, so the foreign key retains
the most recently resolved track-log id (it is `None` only when no earlier
row resolved one). -/
theorem c6_unresolved_key_handling :
    (∀ (pd : Str → Option ℤ) (proto : FeatureProtocol) (gps : List (Str × ℕ))
      (table : Str) (line : List Str) (rows : List (List Str)) (o f : ℕ)
      (fi oi : List Str) (fts : Str) (fqx fqy : Dec) (ots : Str) (oqx oqy : Dec)
      (dv fv ov : List Value),
      line ≠ [] →
      filter_items_by_index (line.drop proto.feature_field_types.length)
        proto.feature_field_map = .ok fi →
      filter_items_by_index (line.drop proto.feature_field_types.length)
        proto.observation_field_map = .ok oi →
      fi.get? proto.f_keyT = some fts →
      (fi.get? proto.f_keyX).bind maybe_float = some fqx →
      (fi.get? proto.f_keyY).bind maybe_float = some fqy →
      oi.get? proto.o_keyT = some ots →
      (oi.get? proto.o_keyX).bind maybe_float = some oqx →
      (oi.get? proto.o_keyY).bind maybe_float = some oqy →
      castItems pd (line.take proto.feature_field_types.length)
        proto.feature_field_types = .ok dv →
      castItems pd fi proto.feature_types = .ok fv →
      castItems pd oi proto.observation_types = .ok ov →
      pyDictGet gps fts = none →
      pyDictGet gps ots = none →
      process_feature_file_v1 pd proto gps table (line :: rows) o f =
        (.insertObservation o ⟨(oqx, oqy), ov, none⟩ ::
          .insertFeature f ⟨(fqx, fqy), dv ++ fv, none, o⟩ ::
          (process_feature_file_v1 pd proto gps table rows (o + 1) (f + 1)).1,
          (process_feature_file_v1 pd proto gps table rows (o + 1) (f + 1)).2)) ∧
    (∀ (pd : Str → Option ℤ) (proto : GpsProtocol)
      (toids : Option (List (Str × ℕ))) (items : List Str) (rows : List (List Str))
      (cur : Option ℕ) (oid : ℕ) (qx qy : Dec) (ts : Str) (vs : List Value),
      (items.get? proto.keyX).bind maybe_float = some qx →
      (items.get? proto.keyY).bind maybe_float = some qy →
      items.get? proto.keyT = some ts →
      castItems pd items proto.field_types = .ok vs →
      hasOids toids = true →
      pyDictGet (toids.getD []) ts = none →
      process_gpspoints_file_v1 pd proto toids (items :: rows) cur oid =
        (⟨(qx, qy), vs, some cur⟩ ::
          (process_gpspoints_file_v1 pd proto toids rows cur (oid + 1)).1,
          (ts, oid) :: (process_gpspoints_file_v1 pd proto toids rows cur (oid + 1)).2.1,
          (process_gpspoints_file_v1 pd proto toids rows cur (oid + 1)).2.2)) := by
  constructor
  · intro pd proto gps table line rows o f fi oi fts fqx fqy ots oqx oqy dv fv ov
      hne hfi hoi hft hfx hfy hot hox hoy hdv hfv hov hgf hgo
    have h := feature_row_success pd proto gps table line rows o f fi oi fts fqx fqy
      ots oqx oqy dv fv ov hne hfi hoi hft hfx hfy hot hox hoy hdv hfv hov
    rw [hgf, hgo] at h
    exact h
  · intro pd proto toids items rows cur oid qx qy ts vs hx hy ht hvs hhas hlook
    simp only [process_gpspoints_file_v1]
    simp only [hx, hy, ht, hvs, hhas, hlook]
    simp

theorem c6_witness :
    process_feature_file_v1 (fun _ => none) FP2 [("zz".data, 5)] "Animals".data
        [L2] 1 1 =
      ([.insertObservation 1 ⟨(⟨10, -1⟩, ⟨20, -1⟩),
          [.text "t1".data, .text "1.0".data, .text "2.0".data], none⟩,
        .insertFeature 1 ⟨(⟨10, -1⟩, ⟨20, -1⟩),
          [.text "t1".data, .text "1.0".data, .text "2.0".data], none, 1⟩], false) ∧
      process_gpspoints_file_v1 (fun _ => none)
        ⟨["TEXT".data, "TEXT".data, "TEXT".data], 0, 1, 2⟩ (some [("t1".data, 7)])
        [["t9".data, "1.0".data, "2.0".data]] (some 7) 2 =
      ([⟨(⟨10, -1⟩, ⟨20, -1⟩),
          [.text "t9".data, .text "1.0".data, .text "2.0".data], some (some 7)⟩],
        [("t9".data, 2)], false) := by
  constructor
  · have h := c6_unresolved_key_handling.1 (fun _ => none) FP2 [("zz".data, 5)]
      "Animals".data L2 [] 1 1 L2 L2 "t1".data ⟨10, -1⟩ ⟨20, -1⟩ "t1".data
      ⟨10, -1⟩ ⟨20, -1⟩ [] [.text "t1".data, .text "1.0".data, .text "2.0".data]
      [.text "t1".data, .text "1.0".data, .text "2.0".data]
      (by decide) (by decide) (by decide) (by decide) (by decide) (by decide)
      (by decide) (by decide) (by decide) (by decide) (by decide) (by decide)
      (by decide) (by decide)
    exact h.trans (by decide)
  · have h := c6_unresolved_key_handling.2 (fun _ => none)
      ⟨["TEXT".data, "TEXT".data, "TEXT".data], 0, 1, 2⟩ (some [("t1".data, 7)])
      ["t9".data, "1.0".data, "2.0".data] [] (some 7) 2 ⟨10, -1⟩ ⟨20, -1⟩ "t9".data
      [.text "t9".data, .text "1.0".data, .text "2.0".data]
      (by decide) (by decide) (by decide) (by decide) (by decide) (by decide)
    exact h.trans (by decide)

/-- Claim C6, counterexample to the unamended claim: a GPS point whose
timestamp is absent from the track-log lookup does not get a null foreign
key — it inherits the id resolved by the previous row (here 7). -/
theorem c6_counterexample :
    pyDictGet [("t1".data, 7)] "t9".data = none ∧
      process_gpspoints_file_v1 (fun _ => none)
        ⟨["TEXT".data, "TEXT".data, "TEXT".data], 0, 1, 2⟩ (some [("t1".data, 7)])
        [["t1".data, "1.0".data, "2.0".data], ["t9".data, "3.0".data, "4.0".data]]
        none 1 =
      ([⟨(⟨10, -1⟩, ⟨20, -1⟩),
          [.text "t1".data, .text "1.0".data, .text "2.0".data], some (some 7)⟩,
        ⟨(⟨30, -1⟩, ⟨40, -1⟩),
          [.text "t9".data, .text "3.0".data, .text "4.0".data], some (some 7)⟩],
        [("t1".data, 1), ("t9".data, 2)], false) :=
  ⟨by decide, by decide⟩

/-- Claim C8: for every successfully processed feature row, the observation
insert happens strictly before the feature insert, and the feature record
carries the observation insert's returned id (`observation_oid = o`, the
observation cursor id consumed by the first event). -/
theorem c8_observation_before_feature (pd : Str → Option ℤ) (proto : FeatureProtocol)
    (gps : List (Str × ℕ)) (table : Str) (line : List Str) (rows : List (List Str))
    (o f : ℕ) (fi oi : List Str) (fts : Str) (fqx fqy : Dec) (ots : Str) (oqx oqy : Dec)
    (dv fv ov : List Value)
    (hne : line ≠ [])
    (hfi : filter_items_by_index (line.drop proto.feature_field_types.length)
      proto.feature_field_map = .ok fi)
    (hoi : filter_items_by_index (line.drop proto.feature_field_types.length)
      proto.observation_field_map = .ok oi)
    (hft : fi.get? proto.f_keyT = some fts)
    (hfx : (fi.get? proto.f_keyX).bind maybe_float = some fqx)
    (hfy : (fi.get? proto.f_keyY).bind maybe_float = some fqy)
    (hot : oi.get? proto.o_keyT = some ots)
    (hox : (oi.get? proto.o_keyX).bind maybe_float = some oqx)
    (hoy : (oi.get? proto.o_keyY).bind maybe_float = some oqy)
    (hdv : castItems pd (line.take proto.feature_field_types.length)
      proto.feature_field_types = .ok dv)
    (hfv : castItems pd fi proto.feature_types = .ok fv)
    (hov : castItems pd oi proto.observation_types = .ok ov) :
    process_feature_file_v1 pd proto gps table (line :: rows) o f =
      (.insertObservation o ⟨(oqx, oqy), ov, pyDictGet gps ots⟩ ::
        .insertFeature f ⟨(fqx, fqy), dv ++ fv, pyDictGet gps fts, o⟩ ::
        (process_feature_file_v1 pd proto gps table rows (o + 1) (f + 1)).1,
        (process_feature_file_v1 pd proto gps table rows (o + 1) (f + 1)).2) :=
  feature_row_success pd proto gps table line rows o f fi oi fts fqx fqy ots oqx oqy
    dv fv ov hne hfi hoi hft hfx hfy hot hox hoy hdv hfv hov

theorem c8_witness :
    process_feature_file_v1 (fun _ => none) FP2 [("t1".data, 3)] "Animals".data
        [L2] 1 9 =
      ([.insertObservation 1 ⟨(⟨10, -1⟩, ⟨20, -1⟩),
          [.text "t1".data, .text "1.0".data, .text "2.0".data], some 3⟩,
        .insertFeature 9 ⟨(⟨10, -1⟩, ⟨20, -1⟩),
          [.text "t1".data, .text "1.0".data, .text "2.0".data], some 3, 1⟩],
        false) := by
  have h := c8_observation_before_feature (fun _ => none) FP2 [("t1".data, 3)]
    "Animals".data L2 [] 1 9 L2 L2 "t1".data ⟨10, -1⟩ ⟨20, -1⟩ "t1".data
    ⟨10, -1⟩ ⟨20, -1⟩ [] [.text "t1".data, .text "1.0".data, .text "2.0".data]
    [.text "t1".data, .text "1.0".data, .text "2.0".data]
    (by decide) (by decide) (by decide) (by decide) (by decide) (by decide)
    (by decide) (by decide) (by decide) (by decide) (by decide) (by decide)
  exact h.trans (by decide)

/-- Claim C9: a token that does not parse as a number casts to a null value
under every declared numeric type (DOUBLE, FLOAT, SHORT, LONG), and the
cast never raises. -/
theorem c9_numeric_cast_never_raises (pd : Str → Option ℤ) (string : Str)
    (hf : maybe_float string = none) (hi : maybe_int string = none) :
    cast pd string "DOUBLE".data = .ok (.float none) ∧
    cast pd string "FLOAT".data = .ok (.float none) ∧
    cast pd string "SHORT".data = .ok (.int none) ∧
    cast pd string "LONG".data = .ok (.int none) := by
  refine ⟨?_, ?_, ?_, ?_⟩
  · rw [show cast pd string "DOUBLE".data = .ok (.float (maybe_float string)) from rfl, hf]
  · rw [show cast pd string "FLOAT".data = .ok (.float (maybe_float string)) from rfl, hf]
  · rw [show cast pd string "SHORT".data = .ok (.int (maybe_int string)) from rfl, hi]
  · rw [show cast pd string "LONG".data = .ok (.int (maybe_int string)) from rfl, hi]

theorem c9_witness :
    maybe_float "abc".data = none ∧ maybe_int "abc".data = none ∧
      cast (fun _ => none) "abc".data "DOUBLE".data = .ok (.float none) :=
  ⟨by decide, by decide,
    (c9_numeric_cast_never_raises (fun _ => none) "abc".data (by decide) (by decide)).1⟩

end CsvLoader
